import Mathlib

/-!
Shallow embedding of `src/bin/cli.js` of `create-react-csr-app`: an
interactive scaffolder that collects an answer record, derives dependency
lists and file/subprocess directives from it, and materializes a project.
Filesystem paths are identified by the relative names the script uses;
subprocess invocations and file writes are recorded as an event trace.
-/

namespace CRA

/-- The `styling` answer: one of the values offered by the styling prompt. -/
inductive Styling where
  | none
  | mui
  | tailwind
  deriving DecidableEq, Repr

/-- The `linting` answer: one of the values offered by the linting prompt. -/
inductive Linting where
  | none
  | eslintPrettier
  | biome
  deriving DecidableEq, Repr

/-- The `router` answer (collected but driving no action in the script). -/
inductive Router where
  | none
  | reactRouter
  | tanStackRouter
  deriving DecidableEq, Repr

/-- The `reactQuery` answer (collected but driving no action in the script). -/
inductive ReactQuery where
  | no
  | yes
  deriving DecidableEq, Repr

/-- The `userAnswers` record of `cli.js`, fully populated after the prompts. -/
structure UserAnswers where
  projectName : String
  styling : Styling
  linting : Linting
  router : Router
  reactQuery : ReactQuery
  deriving DecidableEq, Repr

/-- Embeds `const tailwindVersion = "3.4.17"` (cli.js line 21). -/
def tailwindVersion : String := "3.4.17"

/-- Runtime dependencies pushed by the styling branch (cli.js lines 107-112):
`mui` pushes the four MUI/Emotion packages; the other branches push nothing. -/
def stylingDependencies : Styling → List String
  | .mui => ["@mui/material", "@emotion/react", "@emotion/styled", "@mui/icons-material"]
  | _ => []

/-- Dev dependencies pushed by the styling branch (cli.js lines 109-111):
`tailwind` pushes the pinned tailwindcss plus postcss and autoprefixer. -/
def stylingDevDependencies : Styling → List String
  | .tailwind => ["tailwindcss@" ++ tailwindVersion, "postcss", "autoprefixer"]
  | _ => []

/-- Dev dependencies pushed by the linting branch (cli.js lines 115-126). -/
def lintingDevDependencies : Linting → List String
  | .eslintPrettier =>
      ["eslint", "prettier", "eslint-config-prettier", "eslint-plugin-prettier",
       "eslint-plugin-react", "eslint-plugin-react-hooks"]
  | .biome => ["@biomejs/biome"]
  | .none => []

/-- The final contents of the `dependencies` accumulator array: only the
styling branch pushes runtime dependencies. -/
def dependencies (a : UserAnswers) : List String :=
  stylingDependencies a.styling

/-- The final contents of the `devDependencies` accumulator array: the styling
branch pushes first (cli.js line 110), then the linting branch (lines 116, 125). -/
def devDependencies (a : UserAnswers) : List String :=
  stylingDevDependencies a.styling ++ lintingDevDependencies a.linting

/-! ## Manifest script table

The `scripts` field of `package.json` is modelled as an association list in
object key order. A JavaScript object has unique keys; the spread
`\x7b...scripts, key: value\x7d` keeps an existing key at its position with the
new value and appends a fresh key at the end, which `setKey` mirrors. -/

/-- Association-list model of a JavaScript object mapping script names to
shell-command strings. -/
abbrev ScriptTable := List (String × String)

/-- Semantics of the object spread `\x7b...m, k: v\x7d`: replace the value of
`k` in place when present, append `(k, v)` otherwise. -/
def setKey : ScriptTable → String → String → ScriptTable
  | [], k, v => [(k, v)]
  | (k', v') :: rest, k, v =>
      if k' == k then (k, v) :: rest else (k', v') :: setKey rest k v

/-- The `scripts` IIFE of cli.js (lines 166-188): `eslintPrettier` spreads
three fixed entries over the manifest scripts, `biome` spreads two, and
`none` rebuilds the object keeping only the entries whose key is not one of
`lint`, `lint:fix`, `format`. -/
def scripts (l : Linting) (m : ScriptTable) : ScriptTable :=
  match l with
  | .eslintPrettier =>
      setKey (setKey (setKey m "lint" "eslint src --ext .ts,.tsx")
        "lint:fix" "eslint src --ext .ts,.tsx --fix")
        "format" "prettier --write \x27src/**/*.\x7bts,tsx,css,md\x7d\x27"
  | .biome =>
      setKey (setKey m "lint" "biome check --apply src")
        "lint:fix" "biome check --apply --fix src"
  | .none =>
      m.filter (fun p => !(["lint", "lint:fix", "format"].contains p.1))

/-! ## Project-name validation and filtering -/

/-- Characters matched by the JavaScript regex class `\s` (ECMAScript
WhiteSpace and LineTerminator productions). -/
def jsWhitespace (c : Char) : Bool :=
  c.toNat == 0x20 || c.toNat == 0x9 || c.toNat == 0xa || c.toNat == 0xb ||
  c.toNat == 0xc || c.toNat == 0xd || c.toNat == 0xa0 || c.toNat == 0x1680 ||
  (Nat.ble 0x2000 c.toNat && Nat.ble c.toNat 0x200a) ||
  c.toNat == 0x2028 || c.toNat == 0x2029 || c.toNat == 0x202f ||
  c.toNat == 0x205f || c.toNat == 0x3000 || c.toNat == 0xfeff

/-- Membership in the character class `[A-Za-z\d\s\-\_]` of the validator
regex (cli.js line 35). -/
def isNameChar (c : Char) : Bool :=
  (Nat.ble 65 c.toNat && Nat.ble c.toNat 90) ||
  (Nat.ble 97 c.toNat && Nat.ble c.toNat 122) ||
  (Nat.ble 48 c.toNat && Nat.ble c.toNat 57) ||
  jsWhitespace c || c == '-' || c == '_'

/-- Embeds the anchored test `/^[A-Za-z\d\s\-\_]+$/.test(input)` (cli.js
line 35): it succeeds exactly when the input is non-empty and every
character lies in the class (without the `m` flag, `^` and `$` anchor at the
ends of the whole input, and `+` must then cover every character). -/
def nameValidate (input : String) : Bool :=
  !input.data.isEmpty && input.data.all isNameChar

/-- Character-level semantics of `input.replace(/\s+/g, '-')`: each maximal
run of `\s` characters becomes a single hyphen. The flag records whether the
previous character was part of a whitespace run still being consumed. -/
def collapseWs : Bool → List Char → List Char
  | _, [] => []
  | prevWs, c :: cs =>
      if jsWhitespace c then
        (if prevWs then [] else ['-']) ++ collapseWs true cs
      else c :: collapseWs false cs

/-- Embeds the filter `(input) => input.replace(/\s+/g, '-')` (cli.js
line 39). -/
def nameFilter (input : String) : String :=
  String.mk (collapseWs false input.data)

/-! ## Materializer run trace

The side effects of the `action` callback after the prompts are recorded as
an ordered event trace. Subprocess invocations keep their exact command
strings; file writes keep their exact contents; the `package.json` rewrite
is recorded with the script table it persists. `fs.unlinkSync` on a missing
file throws, modelled by `Except.error`; the surrounding `try`/`catch`
prints the error and exits with status 1. -/

/-- One observable side effect of the materializer. -/
inductive Event where
  | ensureDir (dir : String)
  | exec (cmd : String)
  | chdir (dir : String)
  | writeFile (fname content : String)
  | unlink (fname : String)
  | writeManifest (table : ScriptTable)
  deriving DecidableEq, Repr

/-- Exact content written to `.prettierrc`: `JSON.stringify` of the fixed
options object with 2-space indentation (cli.js lines 117-123). -/
def prettierrcContent : String :=
  "\x7b\n  \"semi\": true,\n  \"trailingComma\": \"es5\",\n  \"singleQuote\": true,\n  \"printWidth\": 100,\n  \"tabWidth\": 2\n\x7d"

/-- Exact content written to `tailwind.config.js` (cli.js lines 144-155). -/
def tailwindConfigContent : String :=
  "/** @type \x7bimport(\x27tailwindcss\x27).Config\x7d */\nexport default \x7b\n  content: [\n    \"./index.html\",\n    \"./src/**/*.\x7bjs,ts,jsx,tsx\x7d\",\n  ],\n  theme: \x7b\n    extend: \x7b\x7d,\n  \x7d,\n  plugins: [],\n\x7d"

/-- Exact content written to `src/index.css` (cli.js line 158). -/
def indexCssContent : String :=
  "@tailwind base;\n@tailwind components;\n@tailwind utilities;"

/-- Embeds `fs.unlinkSync('eslint.config.js')` (cli.js line 126): deleting
the scaffolder-created linter config throws `ENOENT` when the file is
absent. -/
def unlinkEslintConfig (eslintConfigExists : Bool) : Except String (List Event) :=
  if eslintConfigExists then Except.ok [Event.unlink "eslint.config.js"]
  else Except.error "ENOENT: no such file or directory, unlink \x27eslint.config.js\x27"

/-- Side effects of the linting branch run right after `chdir` (cli.js
lines 115-127): `eslintPrettier` writes `.prettierrc`, `biome` deletes
`eslint.config.js` (fallible), `none` does nothing. -/
def lintingSetupEvents (l : Linting) (eslintConfigExists : Bool) :
    Except String (List Event) :=
  match l with
  | .eslintPrettier => Except.ok [Event.writeFile ".prettierrc" prettierrcContent]
  | .biome => unlinkEslintConfig eslintConfigExists
  | .none => Except.ok []

/-- Package-manager invocations (cli.js lines 129-137): one `npm install
--save-dev` with the space-joined dev dependencies when that list is
non-empty, then one `npm install` with the space-joined dependencies when
that list is non-empty. -/
def installEvents (a : UserAnswers) : List Event :=
  (if (devDependencies a).isEmpty then [] else
    [Event.exec ("npm install --save-dev " ++ String.intercalate " " (devDependencies a))]) ++
  (if (dependencies a).isEmpty then [] else
    [Event.exec ("npm install " ++ String.intercalate " " (dependencies a))])

/-- Tailwind materialization (cli.js lines 139-158): run the initializer,
write the fixed config, overwrite the base stylesheet. -/
def tailwindEvents (s : Styling) : List Event :=
  match s with
  | .tailwind =>
      [Event.exec "npx tailwindcss init -p",
       Event.writeFile "tailwind.config.js" tailwindConfigContent,
       Event.writeFile "src/index.css" indexCssContent]
  | _ => []

/-- Biome initializer invocation (cli.js lines 161-163). -/
def biomeInitEvents (l : Linting) : List Event :=
  match l with
  | .biome => [Event.exec "npx biome init"]
  | _ => []

/-- The whole `try` block after the answers are collected (cli.js
lines 94-195), as a trace of side effects in program order: ensure the
project directory, scaffold with Vite, change directory, linting setup
(fallible unlink), package installs, tailwind files, biome init, manifest
rewrite. `eslintConfigExists` is whether `eslint.config.js` is on disk when
the unlink runs, and `m` is the script table read from `package.json`. -/
def run (a : UserAnswers) (eslintConfigExists : Bool) (m : ScriptTable) :
    Except String (List Event) :=
  match lintingSetupEvents a.linting eslintConfigExists with
  | Except.error e => Except.error e
  | Except.ok lintSetup =>
      Except.ok
        ([Event.ensureDir a.projectName,
          Event.exec ("npm create vite@latest " ++ a.projectName ++
            " -- --template react-swc-ts"),
          Event.chdir a.projectName]
         ++ lintSetup
         ++ installEvents a
         ++ tailwindEvents a.styling
         ++ biomeInitEvents a.linting
         ++ [Event.writeManifest (scripts a.linting m)])

/-- The `catch` handler (cli.js lines 198-201): any thrown error is printed
with a red `Error:` label and the process exits with status 1; a successful
run exits with status 0. -/
def exitCode (a : UserAnswers) (eslintConfigExists : Bool) (m : ScriptTable) : Nat :=
  match run a eslintConfigExists m with
  | Except.ok _ => 0
  | Except.error _ => 1

/-- The error line printed by the `catch` handler, when any. -/
def reportedError (a : UserAnswers) (eslintConfigExists : Bool) (m : ScriptTable) :
    Option String :=
  match run a eslintConfigExists m with
  | Except.ok _ => Option.none
  | Except.error e => Option.some ("Error: " ++ e)

/-! ## Install-invocation recognizer -/

/-- Character-level `startsWith`: the first `p.length` characters of `s`
equal `p`. -/
def strStartsWith (s p : String) : Bool :=
  s.data.take p.data.length == p.data

/-- An event is a package-manager install invocation when it is a subprocess
whose command line starts with `npm install`. -/
def isInstallInvocation (e : Event) : Bool :=
  match e with
  | .exec cmd => strStartsWith cmd "npm install"
  | _ => false

/-! ## Helper lemmas -/

theorem lookup_setKey_self (m : ScriptTable) (k v : String) :
    (setKey m k v).lookup k = some v := by
  induction m with
  | nil => simp [setKey, List.lookup]
  | cons p rest ih =>
    obtain ⟨k', v'⟩ := p
    by_cases h : k' = k
    · subst h
      simp [setKey, List.lookup]
    · have h1 : (k' == k) = false := beq_eq_false_iff_ne.mpr h
      have h2 : (k == k') = false := beq_eq_false_iff_ne.mpr (Ne.symm h)
      simp [setKey, h1, h2, List.lookup, ih]

theorem lookup_setKey_other (m : ScriptTable) (k q v : String) (h : k ≠ q) :
    (setKey m k v).lookup q = m.lookup q := by
  induction m with
  | nil =>
    have h2 : (q == k) = false := beq_eq_false_iff_ne.mpr (Ne.symm h)
    simp [setKey, List.lookup, h2]
  | cons p rest ih =>
    obtain ⟨k', v'⟩ := p
    by_cases hk : k' = k
    · subst hk
      have h2 : (q == k') = false := beq_eq_false_iff_ne.mpr (Ne.symm h)
      simp [setKey, List.lookup, h2]
    · have h1 : (k' == k) = false := beq_eq_false_iff_ne.mpr hk
      simp [setKey, h1, List.lookup, ih]

theorem lookup_filter_of_false (m : ScriptTable) (q : String)
    (f : String × String → Bool) (hq : ∀ v, f (q, v) = false) :
    (m.filter f).lookup q = Option.none := by
  induction m with
  | nil => simp
  | cons p rest ih =>
    obtain ⟨k', v'⟩ := p
    by_cases hk : k' = q
    · subst hk
      rw [List.filter_cons, hq v']
      simpa using ih
    · rw [List.filter_cons]
      have h2 : (q == k') = false := beq_eq_false_iff_ne.mpr (Ne.symm hk)
      cases hf : f (k', v')
      · simpa using ih
      · simp [List.lookup, h2, ih]

theorem lookup_filter_of_true (m : ScriptTable) (q : String)
    (f : String × String → Bool) (hq : ∀ v, f (q, v) = true) :
    (m.filter f).lookup q = m.lookup q := by
  induction m with
  | nil => simp
  | cons p rest ih =>
    obtain ⟨k', v'⟩ := p
    by_cases hk : k' = q
    · subst hk
      rw [List.filter_cons, hq v']
      simp [List.lookup]
    · rw [List.filter_cons]
      have h2 : (q == k') = false := beq_eq_false_iff_ne.mpr (Ne.symm hk)
      cases hf : f (k', v')
      · simp [List.lookup, h2, ih]
      · simp [List.lookup, h2, ih]

theorem collapseWs_cons_nonWs (b : Bool) (c : Char) (cs : List Char)
    (hc : jsWhitespace c = false) :
    collapseWs b (c :: cs) = c :: collapseWs false cs := by
  simp [collapseWs, hc]

theorem collapseWs_cons_ws (b : Bool) (c : Char) (cs : List Char)
    (hc : jsWhitespace c = true) :
    collapseWs b (c :: cs) = (if b then [] else ['-']) ++ collapseWs true cs := by
  simp [collapseWs, hc]

theorem collapseWs_allWs (w v : List Char) (hw : ∀ c ∈ w, jsWhitespace c = true) :
    collapseWs true (w ++ v) = collapseWs true v := by
  induction w with
  | nil => rfl
  | cons c cs ih =>
    have hc : jsWhitespace c = true := hw c (by simp)
    simpa [collapseWs, hc] using ih (fun d hd => hw d (by simp [hd]))

theorem collapseWs_nonWs_append (u : List Char) (hu : ∀ c ∈ u, jsWhitespace c = false) :
    ∀ (r : List Char) (b : Bool), u ≠ [] →
      collapseWs b (u ++ r) = u ++ collapseWs false r := by
  induction u with
  | nil => intro r b h; exact absurd rfl h
  | cons c cs ih =>
    intro r b _
    have hc : jsWhitespace c = false := hu c (List.mem_cons_self c cs)
    have hu' : ∀ e ∈ cs, jsWhitespace e = false :=
      fun e he => hu e (List.mem_cons_of_mem _ he)
    cases cs with
    | nil => simp [collapseWs, hc]
    | cons d ds =>
      have h2 := ih hu' r false (by simp)
      rw [List.cons_append, collapseWs_cons_nonWs b c _ hc, h2]
      simp

theorem strStartsWith_append (c s p : String) (h : p.data.length ≤ c.data.length) :
    strStartsWith (c ++ s) p = strStartsWith c p := by
  unfold strStartsWith
  rw [String.data_append, List.take_append_eq_append_take,
      Nat.sub_eq_zero_of_le h]
  simp

theorem vite_not_install (n : String) :
    isInstallInvocation
      (Event.exec ("npm create vite@latest " ++ n ++ " -- --template react-swc-ts")) =
      false := by
  show strStartsWith ("npm create vite@latest " ++ n ++ " -- --template react-swc-ts")
    "npm install" = false
  have h1 : ("npm install" : String).data.length ≤
      ("npm create vite@latest " ++ n).data.length := by
    have e1 : ("npm install" : String).data.length = 11 := by decide
    have e2 : ("npm create vite@latest " : String).data.length = 23 := by decide
    rw [String.data_append, List.length_append, e1, e2]
    omega
  rw [strStartsWith_append ("npm create vite@latest " ++ n)
      " -- --template react-swc-ts" "npm install" h1,
    strStartsWith_append "npm create vite@latest " n "npm install" (by decide)]
  decide

theorem dev_install_is_install (j : String) :
    isInstallInvocation (Event.exec ("npm install --save-dev " ++ j)) = true := by
  show strStartsWith ("npm install --save-dev " ++ j) "npm install" = true
  rw [strStartsWith_append "npm install --save-dev " j "npm install" (by decide)]
  decide

theorem dep_install_is_install (j : String) :
    isInstallInvocation (Event.exec ("npm install " ++ j)) = true := by
  show strStartsWith ("npm install " ++ j) "npm install" = true
  rw [strStartsWith_append "npm install " j "npm install" (by decide)]
  decide

theorem collapseWs_maximal_run (u w v : List Char)
    (hu : ∀ c ∈ u, jsWhitespace c = false) (hw : w ≠ [])
    (hww : ∀ c ∈ w, jsWhitespace c = true) :
    collapseWs false (u ++ w ++ v) = u ++ '-' :: collapseWs true v := by
  obtain ⟨d, w', rfl⟩ : ∃ d w', w = d :: w' := by
    cases w with
    | nil => exact absurd rfl hw
    | cons d w' => exact ⟨d, w', rfl⟩
  have hd : jsWhitespace d = true := hww d (List.mem_cons_self d w')
  have hww' : ∀ c ∈ w', jsWhitespace c = true :=
    fun c hc => hww c (List.mem_cons_of_mem _ hc)
  have step : collapseWs false ((d :: w') ++ v) = '-' :: collapseWs true v := by
    rw [List.cons_append, collapseWs_cons_ws false d _ hd]
    simp [collapseWs_allWs w' v hww']
  by_cases hu0 : u = []
  · subst hu0; simpa using step
  · rw [List.append_assoc, collapseWs_nonWs_append u hu ((d :: w') ++ v) false hu0, step]

theorem contains_eq_false_of_ne (k : String)
    (h1 : k ≠ "lint") (h2 : k ≠ "lint:fix") (h3 : k ≠ "format") :
    (["lint", "lint:fix", "format"].contains k) = false := by
  have e1 : (k == "lint") = false := beq_eq_false_iff_ne.mpr h1
  have e2 : (k == "lint:fix") = false := beq_eq_false_iff_ne.mpr h2
  have e3 : (k == "format") = false := beq_eq_false_iff_ne.mpr h3
  simp [List.contains, List.elem, e1, e2, e3]

/-! ## Claims -/

/-- C7: the interactive project-name validator accepts an input exactly when
it is non-empty and made only of letters, digits, whitespace, hyphens and
underscores (so "bad!name" and the empty string are rejected), and the
accepting filter turns each maximal whitespace run into a single hyphen (so
"My App" becomes "My-App"). -/
theorem name_validator_spec :
    (∀ s : String, nameValidate s = true ↔
      (s.data ≠ [] ∧ ∀ c ∈ s.data, isNameChar c = true)) ∧
    nameValidate "bad!name" = false ∧
    nameValidate "" = false ∧
    nameFilter "My App" = "My-App" ∧
    (∀ u w v : List Char, (∀ c ∈ u, jsWhitespace c = false) → w ≠ [] →
      (∀ c ∈ w, jsWhitespace c = true) →
      collapseWs false (u ++ w ++ v) = u ++ '-' :: collapseWs true v) := by
  refine ⟨?_, by decide, by decide, by decide, collapseWs_maximal_run⟩
  intro s
  simp [nameValidate, List.all_eq_true, List.isEmpty_iff]

/-- C2: with linting eslintPrettier the rewritten script table maps `lint`,
`lint:fix` and `format` to the fixed eslint/prettier command strings and
preserves every other pre-existing key with its original value. -/
theorem eslintPrettier_scripts_spec (m : ScriptTable) (k : String)
    (h1 : k ≠ "lint") (h2 : k ≠ "lint:fix") (h3 : k ≠ "format") :
    (scripts Linting.eslintPrettier m).lookup "lint" =
      some "eslint src --ext .ts,.tsx" ∧
    (scripts Linting.eslintPrettier m).lookup "lint:fix" =
      some "eslint src --ext .ts,.tsx --fix" ∧
    (scripts Linting.eslintPrettier m).lookup "format" =
      some "prettier --write \x27src/**/*.\x7bts,tsx,css,md\x7d\x27" ∧
    (scripts Linting.eslintPrettier m).lookup k = m.lookup k := by
  have e : scripts Linting.eslintPrettier m =
      setKey (setKey (setKey m "lint" "eslint src --ext .ts,.tsx")
        "lint:fix" "eslint src --ext .ts,.tsx --fix")
        "format" "prettier --write \x27src/**/*.\x7bts,tsx,css,md\x7d\x27" := rfl
  refine ⟨?_, ?_, ?_, ?_⟩
  · rw [e, lookup_setKey_other, lookup_setKey_other, lookup_setKey_self]
    · decide
    · decide
  · rw [e, lookup_setKey_other, lookup_setKey_self]
    decide
  · rw [e, lookup_setKey_self]
  · rw [e, lookup_setKey_other, lookup_setKey_other, lookup_setKey_other]
    · exact Ne.symm h1
    · exact Ne.symm h2
    · exact Ne.symm h3

theorem eslintPrettier_scripts_spec_witness :
    (scripts Linting.eslintPrettier [("dev", "vite"), ("lint", "old")]).lookup "dev" =
      some "vite" :=
  (eslintPrettier_scripts_spec [("dev", "vite"), ("lint", "old")] "dev"
    (by decide) (by decide) (by decide)).2.2.2

/-- C3: with linting none the rewritten script table contains no `lint`,
`lint:fix` or `format` key, whether or not they existed before, and every
other key keeps its original value. -/
theorem none_scripts_spec (m : ScriptTable) (k : String)
    (h1 : k ≠ "lint") (h2 : k ≠ "lint:fix") (h3 : k ≠ "format") :
    (scripts Linting.none m).lookup "lint" = Option.none ∧
    (scripts Linting.none m).lookup "lint:fix" = Option.none ∧
    (scripts Linting.none m).lookup "format" = Option.none ∧
    (scripts Linting.none m).lookup k = m.lookup k := by
  have e : scripts Linting.none m =
      m.filter (fun p => !(["lint", "lint:fix", "format"].contains p.1)) := rfl
  refine ⟨?_, ?_, ?_, ?_⟩
  · rw [e]; exact lookup_filter_of_false m "lint" _ (fun v => rfl)
  · rw [e]; exact lookup_filter_of_false m "lint:fix" _ (fun v => rfl)
  · rw [e]; exact lookup_filter_of_false m "format" _ (fun v => rfl)
  · rw [e]
    refine lookup_filter_of_true m k _ (fun v => ?_)
    show (!(["lint", "lint:fix", "format"].contains k)) = true
    rw [contains_eq_false_of_ne k h1 h2 h3]
    rfl

theorem none_scripts_spec_witness :
    (scripts Linting.none [("lint", "x"), ("dev", "vite")]).lookup "dev" = some "vite" :=
  (none_scripts_spec [("lint", "x"), ("dev", "vite")] "dev"
    (by decide) (by decide) (by decide)).2.2.2

/-- C4 counterexample: with linting biome a pre-existing `format` script
survives the object spread, so the rewritten table is not format-free for
every initial table. -/
theorem biome_scripts_format_cex :
    (scripts Linting.biome [("format", "echo hi")]).lookup "format" ≠ Option.none := by
  decide

/-- C4 amended: with linting biome the rewritten script table maps `lint`
and `lint:fix` to the fixed biome command strings and adds no `format`
entry; every other key — `format` included — keeps its original value, so
`format` is absent from the result exactly when it was absent initially. -/
theorem biome_scripts_amended (m : ScriptTable) (k : String)
    (h1 : k ≠ "lint") (h2 : k ≠ "lint:fix") :
    (scripts Linting.biome m).lookup "lint" = some "biome check --apply src" ∧
    (scripts Linting.biome m).lookup "lint:fix" = some "biome check --apply --fix src" ∧
    (scripts Linting.biome m).lookup k = m.lookup k := by
  have e : scripts Linting.biome m =
      setKey (setKey m "lint" "biome check --apply src")
        "lint:fix" "biome check --apply --fix src" := rfl
  refine ⟨?_, ?_, ?_⟩
  · rw [e, lookup_setKey_other, lookup_setKey_self]
    decide
  · rw [e, lookup_setKey_self]
  · rw [e, lookup_setKey_other, lookup_setKey_other]
    · exact Ne.symm h1
    · exact Ne.symm h2

theorem biome_scripts_amended_witness :
    (scripts Linting.biome [("format", "keep")]).lookup "format" = some "keep" :=
  (biome_scripts_amended [("format", "keep")] "format" (by decide) (by decide)).2.2

/-- C5: with styling tailwind the dev-dependency list gains exactly the
pinned tailwindcss, postcss and autoprefixer, in that order and ahead of
any linting dev dependencies, and the pinned version is the fixed literal
`3.4.17` embedded in the program. -/
theorem tailwind_devDependencies_spec (a : UserAnswers)
    (hs : a.styling = Styling.tailwind) :
    tailwindVersion = "3.4.17" ∧
    stylingDevDependencies Styling.tailwind =
      ["tailwindcss@" ++ tailwindVersion, "postcss", "autoprefixer"] ∧
    devDependencies a =
      ["tailwindcss@3.4.17", "postcss", "autoprefixer"] ++
        lintingDevDependencies a.linting := by
  refine ⟨rfl, rfl, ?_⟩
  rw [devDependencies, hs]
  rfl

theorem tailwind_devDependencies_spec_witness :
    devDependencies ⟨"app", Styling.tailwind, Linting.none, Router.none, ReactQuery.no⟩ =
      ["tailwindcss@3.4.17", "postcss", "autoprefixer"] ++
        lintingDevDependencies Linting.none :=
  (tailwind_devDependencies_spec
    ⟨"app", Styling.tailwind, Linting.none, Router.none, ReactQuery.no⟩ rfl).2.2

/-- C8: with linting biome and no `eslint.config.js` on disk, the unlink
raises an error that reaches the single top-level handler, which reports a
labeled error message and exits with status 1 — never a silent no-op. -/
theorem biome_missing_config_fatal (a : UserAnswers) (m : ScriptTable)
    (hl : a.linting = Linting.biome) :
    run a false m =
      Except.error "ENOENT: no such file or directory, unlink \x27eslint.config.js\x27" ∧
    exitCode a false m = 1 ∧
    reportedError a false m =
      Option.some "Error: ENOENT: no such file or directory, unlink \x27eslint.config.js\x27" := by
  have h : run a false m =
      Except.error "ENOENT: no such file or directory, unlink \x27eslint.config.js\x27" := by
    unfold run
    rw [hl]
    rfl
  refine ⟨h, ?_, ?_⟩
  · unfold exitCode
    rw [h]
  · unfold reportedError
    rw [h]
    rfl

theorem biome_missing_config_fatal_witness :
    exitCode ⟨"app", Styling.none, Linting.biome, Router.none, ReactQuery.no⟩ false [] = 1 :=
  (biome_missing_config_fatal
    ⟨"app", Styling.none, Linting.biome, Router.none, ReactQuery.no⟩ [] rfl).2.1

/-- C10: a whitespace-only input passes the name validator, the filter maps
it to "-", and that hyphen is then the directory name the run creates and
scaffolds into. -/
theorem whitespace_only_name_accepted :
    nameValidate " " = true ∧ nameFilter " " = "-" ∧
    run ⟨"-", Styling.none, Linting.none, Router.none, ReactQuery.no⟩ true [] =
      Except.ok [Event.ensureDir "-",
        Event.exec "npm create vite@latest - -- --template react-swc-ts",
        Event.chdir "-",
        Event.writeManifest []] :=
  ⟨by decide, by decide, rfl⟩

theorem isInstallInvocation_ensureDir (d : String) :
    isInstallInvocation (Event.ensureDir d) = false := rfl

theorem isInstallInvocation_chdir (d : String) :
    isInstallInvocation (Event.chdir d) = false := rfl

theorem isInstallInvocation_writeManifest (tbl : ScriptTable) :
    isInstallInvocation (Event.writeManifest tbl) = false := rfl

theorem filter_lintSetup (l : Linting) (b : Bool) (ls : List Event)
    (h : lintingSetupEvents l b = Except.ok ls) :
    ls.filter isInstallInvocation = [] := by
  cases l with
  | eslintPrettier =>
    simp only [lintingSetupEvents, Except.ok.injEq] at h
    subst h
    rfl
  | biome =>
    cases b with
    | false => simp [lintingSetupEvents, unlinkEslintConfig] at h
    | true =>
      simp only [lintingSetupEvents, unlinkEslintConfig, if_true, Except.ok.injEq] at h
      subst h
      rfl
  | none =>
    simp only [lintingSetupEvents, Except.ok.injEq] at h
    subst h
    rfl

theorem filter_tailwind (s : Styling) :
    (tailwindEvents s).filter isInstallInvocation = [] := by
  cases s <;> rfl

theorem filter_biomeInit (l : Linting) :
    (biomeInitEvents l).filter isInstallInvocation = [] := by
  cases l <;> rfl

theorem installEvents_eq (a : UserAnswers) :
    installEvents a =
      (if devDependencies a = [] then [] else
        [Event.exec ("npm install --save-dev " ++
          String.intercalate " " (devDependencies a))]) ++
      (if dependencies a = [] then [] else
        [Event.exec ("npm install " ++ String.intercalate " " (dependencies a))]) := by
  unfold installEvents
  cases hd : devDependencies a <;> cases hp : dependencies a <;> simp

theorem filter_installEvents (a : UserAnswers) :
    (installEvents a).filter isInstallInvocation = installEvents a := by
  unfold installEvents
  cases hd : devDependencies a <;> cases hp : dependencies a <;>
    simp [List.filter_append, List.filter_cons, dev_install_is_install,
      dep_install_is_install]

/-- C1: with styling mui and linting none the resolver produces exactly the
four MUI packages as dependencies, in order, an empty dev-dependency list,
and a run that succeeds with a trace containing no file-write directive at
all — in particular no styling file. -/
theorem mui_none_resolution (a : UserAnswers) (b : Bool) (m : ScriptTable)
    (hs : a.styling = Styling.mui) (hl : a.linting = Linting.none) :
    dependencies a =
      ["@mui/material", "@emotion/react", "@emotion/styled", "@mui/icons-material"] ∧
    devDependencies a = [] ∧
    ∃ t, run a b m = Except.ok t ∧ ∀ f c, Event.writeFile f c ∉ t := by
  obtain ⟨n, s, l, r, q⟩ := a
  simp only at hs hl
  subst hs
  subst hl
  refine ⟨rfl, rfl, ?_⟩
  refine ⟨_, rfl, ?_⟩
  intro f c
  simp [run, lintingSetupEvents, installEvents, tailwindEvents, biomeInitEvents,
    dependencies, devDependencies, stylingDependencies, stylingDevDependencies,
    lintingDevDependencies]

theorem mui_none_resolution_witness :
    dependencies ⟨"app", Styling.mui, Linting.none, Router.none, ReactQuery.no⟩ =
      ["@mui/material", "@emotion/react", "@emotion/styled", "@mui/icons-material"] :=
  (mui_none_resolution ⟨"app", Styling.mui, Linting.none, Router.none, ReactQuery.no⟩
    true [] rfl rfl).1

/-- C6: every successful run with styling tailwind writes
`tailwind.config.js` with exactly the fixed template (content globs
`./index.html` and `./src/**/*.\x7bjs,ts,jsx,tsx\x7d`, empty theme extension,
empty plugin list) and overwrites `src/index.css` with exactly the three
framework-import directives. -/
theorem tailwind_files_spec (a : UserAnswers) (b : Bool) (m : ScriptTable)
    (t : List Event) (hs : a.styling = Styling.tailwind)
    (ht : run a b m = Except.ok t) :
    tailwindConfigContent =
      "/** @type \x7bimport(\x27tailwindcss\x27).Config\x7d */\nexport default \x7b\n  content: [\n    \"./index.html\",\n    \"./src/**/*.\x7bjs,ts,jsx,tsx\x7d\",\n  ],\n  theme: \x7b\n    extend: \x7b\x7d,\n  \x7d,\n  plugins: [],\n\x7d" ∧
    indexCssContent = "@tailwind base;\n@tailwind components;\n@tailwind utilities;" ∧
    Event.writeFile "tailwind.config.js" tailwindConfigContent ∈ t ∧
    Event.writeFile "src/index.css" indexCssContent ∈ t := by
  rcases hls : lintingSetupEvents a.linting b with e | ls
  · unfold run at ht
    rw [hls] at ht
    simp at ht
  · unfold run at ht
    rw [hls] at ht
    simp only [Except.ok.injEq] at ht
    subst ht
    refine ⟨rfl, rfl, ?_, ?_⟩ <;>
      simp [hs, tailwindEvents]

theorem tailwind_files_spec_witness :
    Event.writeFile "tailwind.config.js" tailwindConfigContent ∈
      ([Event.ensureDir "app",
        Event.exec "npm create vite@latest app -- --template react-swc-ts",
        Event.chdir "app",
        Event.exec "npm install --save-dev tailwindcss@3.4.17 postcss autoprefixer",
        Event.exec "npx tailwindcss init -p",
        Event.writeFile "tailwind.config.js" tailwindConfigContent,
        Event.writeFile "src/index.css" indexCssContent,
        Event.writeManifest []] : List Event) :=
  (tailwind_files_spec
    ⟨"app", Styling.tailwind, Linting.none, Router.none, ReactQuery.no⟩
    true [] _ rfl rfl).2.2.1

/-- C9: in every successful run the package manager is invoked for dev
dependencies exactly when that list is non-empty and for dependencies
exactly when that list is non-empty, each as a single invocation whose
argument is the space-joined list in insertion order, with the
dev-dependency invocation first. -/
theorem install_invocations_spec (a : UserAnswers) (b : Bool) (m : ScriptTable)
    (t : List Event) (ht : run a b m = Except.ok t) :
    t.filter isInstallInvocation =
      (if devDependencies a = [] then [] else
        [Event.exec ("npm install --save-dev " ++
          String.intercalate " " (devDependencies a))]) ++
      (if dependencies a = [] then [] else
        [Event.exec ("npm install " ++ String.intercalate " " (dependencies a))]) := by
  rcases hls : lintingSetupEvents a.linting b with e | ls
  · unfold run at ht
    rw [hls] at ht
    simp at ht
  · unfold run at ht
    rw [hls] at ht
    simp only [Except.ok.injEq] at ht
    subst ht
    rw [← installEvents_eq]
    simp only [List.filter_append, filter_lintSetup a.linting b ls hls,
      filter_tailwind, filter_biomeInit, filter_installEvents,
      List.append_nil, List.nil_append]
    simp [List.filter_cons, isInstallInvocation_ensureDir, isInstallInvocation_chdir,
      isInstallInvocation_writeManifest, vite_not_install]

theorem install_invocations_spec_witness :
    ([Event.ensureDir "app",
      Event.exec "npm create vite@latest app -- --template react-swc-ts",
      Event.chdir "app",
      Event.writeFile ".prettierrc" prettierrcContent,
      Event.exec "npm install --save-dev eslint prettier eslint-config-prettier eslint-plugin-prettier eslint-plugin-react eslint-plugin-react-hooks",
      Event.exec "npm install @mui/material @emotion/react @emotion/styled @mui/icons-material",
      Event.writeManifest [("lint", "eslint src --ext .ts,.tsx"),
        ("lint:fix", "eslint src --ext .ts,.tsx --fix"),
        ("format", "prettier --write \x27src/**/*.\x7bts,tsx,css,md\x7d\x27")]] :
        List Event).filter isInstallInvocation =
      [Event.exec "npm install --save-dev eslint prettier eslint-config-prettier eslint-plugin-prettier eslint-plugin-react eslint-plugin-react-hooks",
       Event.exec "npm install @mui/material @emotion/react @emotion/styled @mui/icons-material"] :=
  install_invocations_spec
    ⟨"app", Styling.mui, Linting.eslintPrettier, Router.none, ReactQuery.no⟩
    true [] _ rfl

end CRA
